import Mathlib

/-!
Verification of the wbtc-tracker worker (src/index.ts).

The source is a Cloudflare Worker that aggregates wrapped-BTC supply
figures from Ethereum-style contract calls, a Solana batched account
read, a Bitcoin stats endpoint and a price endpoint.  Network endpoints
are modelled as oracles (functions from the attempt index and request
data to an `Except` outcome, where `Except.error` models a rejected
promise / thrown exception).  JS `bigint` values are modelled as `Int`
(`Nat` where the source can only produce non-negative values), JS
strings as `String`, and JS `number` as `ℚ` where the source only ever
meets values on which IEEE double arithmetic is exact (this is noted at
each use site).
-/

/-! ### Decimal digit infrastructure (JS `BigInt.prototype.toString`) -/

/-- The decimal digit character for `d < 10` (table form so facts about it
are provable by case analysis). -/
def digitChar (d : Nat) : Char :=
  match d with
  | 0 => '0' | 1 => '1' | 2 => '2' | 3 => '3' | 4 => '4'
  | 5 => '5' | 6 => '6' | 7 => '7' | 8 => '8' | _ => '9'

/-- Numeric value of a digit character. -/
def digitVal (c : Char) : Nat := c.toNat - 48

/-- `true` exactly on the characters `'0'`..`'9'`. -/
def isDigitC (c : Char) : Bool := decide (48 ≤ c.toNat ∧ c.toNat ≤ 57)

/-- Little-endian base-10 digits of `n`, `[]` for `0`; `fuel`-structured so
that it reduces in the kernel. -/
def toDigitsAux : Nat → Nat → List Nat
  | _, 0 => []
  | 0, _ + 1 => []
  | fuel + 1, n + 1 => (n + 1) % 10 :: toDigitsAux fuel ((n + 1) / 10)

/-- Little-endian base-10 digits of `n` (`[]` for `0`). -/
def natDigitsLE (n : Nat) : List Nat := toDigitsAux n n

/-- The character list produced by JS `n.toString()` for a non-negative
integer `n`: most-significant digit first, `"0"` for zero. -/
def natToChars (n : Nat) : List Char :=
  if n = 0 then ['0'] else ((natDigitsLE n).map digitChar).reverse

/-- The character list produced by JS `v.toString()` for a `bigint` `v`. -/
def jsBigIntChars (v : Int) : List Char :=
  if v < 0 then '-' :: natToChars v.natAbs else natToChars v.toNat

/-- JS `String.prototype.padStart(n, '0')`: left-pad with zeros up to
length `n` (no-op when already at least that long). -/
def padStartZeros (s : List Char) (n : Nat) : List Char :=
  List.replicate (n - s.length) '0' ++ s

/-- JS `.replace(/0+$/, '')`: remove the trailing run of `'0'`
characters. -/
def stripTrailing0 (s : List Char) : List Char :=
  (s.reverse.dropWhile (fun c => c = '0')).reverse

/-- `formatUnits` from src/index.ts (lines 67-73): renders
`value / 10 ^ decimals` the way the JS code does, by string surgery on
`value.toString().padStart(decimals + 1, '0')`. -/
def formatUnits (value : Int) (decimals : Nat) : String :=
  let str := padStartZeros (jsBigIntChars value) (decimals + 1)
  let i := str.length - decimals
  let intPart := if str.take i = [] then ['0'] else str.take i
  let fracPart := stripTrailing0 (str.drop i)
  ⟨if fracPart = [] then intPart else intPart ++ '.' :: fracPart⟩

/-! ### Exact decimal numbers

JS `number` values in this program are produced by `parseFloat` on
decimal strings, added, compared, divided by `10 ^ 8` and re-rendered
with `toFixed(8)` / `toLocaleString`.  We model them exactly as
`m / 10 ^ e` pairs; IEEE double arithmetic agrees with this exact model
on every value the verified claims touch (integers below `2 ^ 53`), and
the divergence on other inputs is outside every claim's scope. -/

/-- An exact decimal number `m / 10 ^ e`. -/
structure DecNum where
  m : Int
  e : Nat
deriving DecidableEq

/-- Interpretation of a `DecNum` as a rational. -/
def DecNum.toQ (x : DecNum) : ℚ := (x.m : ℚ) / 10 ^ x.e

/-- Exact addition of decimal numbers (common-denominator form). -/
def DecNum.add (a b : DecNum) : DecNum :=
  ⟨a.m * 10 ^ (max a.e b.e - a.e) + b.m * 10 ^ (max a.e b.e - b.e), max a.e b.e⟩

/-- Exact strict comparison of decimal numbers. -/
def DecNum.blt (a b : DecNum) : Bool :=
  a.m * 10 ^ (max a.e b.e - a.e) < b.m * 10 ^ (max a.e b.e - b.e)

/-- Division by `10 ^ k` (exact). -/
def DecNum.divPow10 (a : DecNum) (k : Nat) : DecNum := ⟨a.m, a.e + k⟩

/-! ### A model of JS `parseFloat` (prefix decimal parsing, no exponent
handling, which the strings produced by this program never use) -/

/-- Split an optional leading sign, as `parseFloat` does. -/
def splitSign (cs : List Char) : Bool × List Char :=
  match cs with
  | [] => (false, [])
  | c :: rest =>
      if c = '-' then (true, rest)
      else if c = '+' then (false, rest)
      else (false, c :: rest)

/-- Value of a most-significant-first digit-character list. -/
def ofCharsMSB (cs : List Char) : Nat :=
  cs.foldl (fun acc c => acc * 10 + digitVal c) 0

/-- Value of a little-endian digit list. -/
def ofDigitsLE (l : List Nat) : Nat := l.foldr (fun d acc => acc * 10 + d) 0

/-- JS `parseFloat`, restricted to sign / integer digits / optional
fraction (the shapes this program produces): parses the longest valid
prefix; `none` models `NaN`. -/
def parseFloatNum (s : String) : Option DecNum :=
  let p := splitSign s.data
  let intDs := p.2.takeWhile isDigitC
  let rest := p.2.dropWhile isDigitC
  let fracDs : List Char :=
    match rest with
    | [] => []
    | c :: r => if c = '.' then r.takeWhile isDigitC else []
  if intDs = [] ∧ fracDs = [] then none
  else
    let mag : Int := ofCharsMSB intDs * 10 ^ fracDs.length + ofCharsMSB fracDs
    some ⟨if p.1 then -mag else mag, fracDs.length⟩


/-! ### Resilient Fetcher (`withRetry`, src/index.ts lines 85-99)

An async operation is modelled as `op : Nat → Except E A`, giving the
outcome of its `i`-th invocation (`Except.error` = rejected promise).
The trace records the result, the number of invocations of `op`, and
the list of back-off sleeps performed (in ms), in order. -/

/-- Equality on `Except` outcomes is decidable (needed to evaluate
concrete traces with `decide`). -/
instance exceptDecEq [DecidableEq ε] [DecidableEq α] : DecidableEq (Except ε α) := fun a b =>
  match a, b with
  | Except.ok x, Except.ok y =>
      if h : x = y then isTrue (by rw [h]) else isFalse (by intro hc; cases hc; exact h rfl)
  | Except.error x, Except.error y =>
      if h : x = y then isTrue (by rw [h]) else isFalse (by intro hc; cases hc; exact h rfl)
  | Except.ok _, Except.error _ => isFalse (by intro hc; cases hc)
  | Except.error _, Except.ok _ => isFalse (by intro hc; cases hc)

/-- Error leaving `withRetry`: either the re-raised operation error from
the last attempt, or the generic `'Retry attempts exhausted'` error after
line 98. -/
inductive RetryError (E : Type) where
  | opErr : E → RetryError E
  | exhausted : RetryError E
deriving DecidableEq

/-- Execution trace of `withRetry`. -/
structure RetryTrace (E A : Type) where
  result : Except (RetryError E) A
  calls : Nat
  delays : List Nat
deriving DecidableEq

/-- The loop of `withRetry`: `i` is the current attempt index, the second
argument the number of remaining attempts (`attempts - i`). -/
def withRetryGo (op : Nat → Except E A) (delay : Nat) : Nat → Nat → RetryTrace E A
  | _, 0 => ⟨Except.error RetryError.exhausted, 0, []⟩
  | i, r + 1 =>
    match op i with
    | Except.ok a => ⟨Except.ok a, 1, []⟩
    | Except.error err =>
      if r = 0 then ⟨Except.error (RetryError.opErr err), 1, []⟩
      else
        let t := withRetryGo op delay (i + 1) r
        ⟨t.result, t.calls + 1, delay * 2 ^ i :: t.delays⟩

/-- `withRetry` from src/index.ts lines 85-99 (natural attempt count). -/
def withRetry (op : Nat → Except E A) (attempts delay : Nat) : RetryTrace E A :=
  withRetryGo op delay 0 attempts

/-- `withRetry` as callable from JS with any integer `attempts`: the loop
`for (let i = 0; i < attempts; i++)` runs `max attempts 0` times. -/
def withRetryJS (op : Nat → Except E A) (attempts : Int) (delay : Nat) : RetryTrace E A :=
  withRetryGo op delay 0 attempts.toNat

/-- `CONFIG.RETRY_ATTEMPTS`. -/
def RETRY_ATTEMPTS : Nat := 3
/-- `CONFIG.RETRY_DELAY` in ms. -/
def RETRY_DELAY : Nat := 1000

/-! ### Data model (src/index.ts lines 13-63) -/

/-- Ethereum token configuration. -/
structure EthToken where
  symbol : String
  address : String
deriving DecidableEq

/-- Solana token configuration. -/
structure SolToken where
  symbol : String
  mint : String
deriving DecidableEq

/-- Supply data for a token (`address`/`mint` optional as in the source). -/
structure TokenSupply where
  symbol : String
  supply : String
  address : Option String
  mint : Option String
deriving DecidableEq

/-- The `ethTokens` configuration list. -/
def ethTokens : List EthToken :=
  [⟨"wBTC", "0x2260FAC5E5542a773Aa44fBCfeDf7C193bc2C599"⟩,
   ⟨"renBTC", "0xeb4c2781e4eba804ce9a9803c67d0893436bb27d"⟩,
   ⟨"tBTCv1", "0x8daebade922df735c38c80c7ebd708af50815faa"⟩,
   ⟨"tBTCv2", "0x18084fba666a33d37592fa2633fd49a74dd93a88"⟩,
   ⟨"cbBTC", "0xcbb7c0000ab88b473b1f5afd9ef808440eed33bf"⟩]

/-- The `solTokens` configuration list. -/
def solTokens : List SolToken :=
  [⟨"wBTC", "3NZ9JMVBmGAqocybic2c7LQCJScmgsAZ6vQqTDzcqmJh"⟩,
   ⟨"renBTC", "CDJWUqTcYTVAKXAVXoQZFes5JUFc7owSeq7eMQcDSbo5"⟩,
   ⟨"pBTC", "DYDWu4hE4MN3aH897xQ3sRTs5EAjJDmQsKLNhbpUiKun"⟩,
   ⟨"cbBTC", "cbbtcf3aa214zXHbiAZQwf4122FBYbraNdFqgw4iMij"⟩,
   ⟨"zBTC", "zBTCug3er3tLyffELcvDNrKkCymbPWysGcWihESYfLg"⟩,
   ⟨"tBTC", "6DNSN2BJsaPFdFFc1zP37kkeNe4Usc1Sqkzr9C9vPWcU"⟩]

/-! ### Ethereum-style reader (src/index.ts lines 101-175) -/

/-- `eth_call` selector for `totalSupply()`. -/
def TOTAL_SUPPLY_SIG : String := "0x18160ddd"
/-- `eth_call` selector for `decimals()`. -/
def DECIMALS_SIG : String := "0x313ce567"

/-- One JSON body answered by an Ethereum RPC endpoint.  `error` is the
truthiness of the `.error` field; `result` is the `.result` field
(`none` = absent/falsy), whose payload is the outcome of `BigInt(...)`
on it (`Except.error` = the hex parse throwing). -/
structure EthRpcJson where
  error : Bool
  result : Option (Except Unit Nat)
deriving DecidableEq

/-- An Ethereum endpoint: maps (contract address, call data) to the call's
outcome; `Except.error` models a rejected `fetch` / aborted timeout /
`r.json()` failure. -/
def EthRpc : Type := String → String → Except Unit EthRpcJson

/-- `fetchSingleSupply` (lines 106-156).  The whole body sits in one
`try`/`catch` whose `catch` (and the explicit error branch at line 138)
returns `{symbol, supply: '0', address}`, so the function always
resolves and never rejects. -/
def fetchSingleSupply (token : EthToken) (rpc : EthRpc) : TokenSupply :=
  match rpc token.address TOTAL_SUPPLY_SIG, rpc token.address DECIMALS_SIG with
  | Except.ok supplyRes, Except.ok decimalsRes =>
    if supplyRes.error || decimalsRes.error then
      ⟨token.symbol, "0", some token.address, none⟩
    else
      -- `supplyRes.result ? BigInt(supplyRes.result) : 0n` and
      -- `decimalsRes.result ? Number(BigInt(decimalsRes.result)) : 8`;
      -- a throwing BigInt parse is caught by the surrounding catch.
      match supplyRes.result.getD (Except.ok 0), decimalsRes.result.getD (Except.ok 8) with
      | Except.ok supplyRaw, Except.ok decimals =>
          ⟨token.symbol, formatUnits supplyRaw decimals, some token.address, none⟩
      | _, _ => ⟨token.symbol, "0", some token.address, none⟩
  | _, _ => ⟨token.symbol, "0", some token.address, none⟩

/-- The per-token pipeline of `fetchEthereumSupplies` (lines 166-171):
`withRetry(() => fetchSingleSupply(token, ETH_RPC)).catch(() =>
fetchSingleSupply(token, ETH_RPC_FALLBACK))`.  `primary i` is the
primary endpoint's behaviour during the `i`-th attempt; the retried
operation is wrapped in `Except.ok` because `fetchSingleSupply` always
resolves (see above). -/
def ethTokenResult (token : EthToken) (primary : Nat → EthRpc) (fallback : EthRpc)
    (attempts delay : Nat) : TokenSupply :=
  match (withRetry (fun i => (Except.ok (fetchSingleSupply token (primary i)) : Except Unit TokenSupply))
      attempts delay).result with
  | Except.ok ts => ts
  | Except.error _ => fetchSingleSupply token fallback

/-- `fetchEthereumSupplies` (lines 158-175), generalised over the static
token configuration it closes over. -/
def fetchEthereumSuppliesFor (tokens : List EthToken) (primary : Nat → EthRpc)
    (fallback : EthRpc) : List TokenSupply :=
  tokens.map fun token => ethTokenResult token primary fallback RETRY_ATTEMPTS RETRY_DELAY

/-- `fetchEthereumSupplies` on the configured `ethTokens`. -/
def fetchEthereumSupplies (primary : Nat → EthRpc) (fallback : EthRpc) : List TokenSupply :=
  fetchEthereumSuppliesFor ethTokens primary fallback

/-! ### Solana-style reader (src/index.ts lines 177-228) -/

/-- One entry of the `getMultipleAccounts` result array.  `data` is the
`.data` field (`none` = absent/falsy); its payload is the outcome of
`atob(acc.data[0])` turned into bytes (`Except.error` = the base64
decode throwing, which the per-token `try`/`catch` absorbs). -/
structure SolAccount where
  data : Option (Except Unit (List Nat))
deriving DecidableEq

/-- One JSON body answered by the Solana RPC endpoint:
`res.result?.value`, a parallel array whose entries may be `null`. -/
structure SolanaRpcResponse where
  resultValue : Option (List (Option SolAccount))
deriving DecidableEq

/-- `Array.prototype.map`'s `(value, index)` callback, with the running
index threaded explicitly. -/
def mapWithIdx (f : Nat → α → β) : Nat → List α → List β
  | _, [] => []
  | i, a :: as => f i a :: mapWithIdx f (i + 1) as

/-- The raw-amount loop (line 217):
`for (let i = 0; i < 8; i++) raw |= BigInt(data[36 + i]) << (8n * BigInt(i))`. -/
def solRawAmount (data : List Nat) : Nat :=
  (List.range 8).foldl (fun raw i => raw ||| ((data.getD (36 + i) 0) <<< (8 * i))) 0

/-- The decimals field (line 218): `data[44] || 8`.  A missing byte reads
as `undefined` and a zero byte is falsy; both fall back to 8. -/
def solDecimals (data : List Nat) : Nat :=
  if data.getD 44 0 = 0 then 8 else data.getD 44 0

/-- The per-token decode of `fetchSolanaSupplies` (lines 211-224).  If the
blob is shorter than 44 bytes, `data[36 + i]` is `undefined` for some
`i`, `BigInt(undefined)` throws, and the `catch` yields supply `"0"`. -/
def decodeSolToken (token : SolToken) (acc : Option SolAccount) : TokenSupply :=
  match acc with
  | none => ⟨token.symbol, "0", none, some token.mint⟩
  | some a =>
    match a.data with
    | none => ⟨token.symbol, "0", none, some token.mint⟩
    | some (Except.error _) => ⟨token.symbol, "0", none, some token.mint⟩
    | some (Except.ok data) =>
      if data.length < 44 then ⟨token.symbol, "0", none, some token.mint⟩
      else ⟨token.symbol, formatUnits (solRawAmount data) (solDecimals data), none, some token.mint⟩

/-- `fetchSolanaSupplies` (lines 178-228), generalised over the static
token configuration.  The batched call goes through `withRetry` with NO
surrounding `try`/`catch`: when the retry budget is exhausted the error
propagates out of the reader (only the worker's top-level handler
catches it).  A resolved response without `result.value` yields the
all-zero list; otherwise each token is decoded positionally, with
`accounts[idx]` reading `undefined` (here `none`) past the array's
end. -/
def fetchSolanaSuppliesFor (tokens : List SolToken) (rpc : Nat → Except Unit SolanaRpcResponse)
    (attempts delay : Nat) : Except (RetryError Unit) (List TokenSupply) :=
  match (withRetry rpc attempts delay).result with
  | Except.error e => Except.error e
  | Except.ok res =>
    match res.resultValue with
    | none => Except.ok (tokens.map fun token => ⟨token.symbol, "0", none, some token.mint⟩)
    | some accounts =>
        Except.ok (mapWithIdx (fun idx token => decodeSolToken token (accounts.getD idx none)) 0 tokens)

/-- `fetchSolanaSupplies` on the configured `solTokens`. -/
def fetchSolanaSupplies (rpc : Nat → Except Unit SolanaRpcResponse)
    (attempts delay : Nat) : Except (RetryError Unit) (List TokenSupply) :=
  fetchSolanaSuppliesFor solTokens rpc attempts delay

/-! ### Number rendering used by the aggregation -/

/-- JS `Number.prototype.toFixed(8)` on an exact decimal value: the
integer `n` minimising `|n / 10 ^ 8 - x|` (larger `n` on ties, hence
`⌊x * 10 ^ 8 + 1 / 2⌋` via flooring division), rendered with exactly 8
fraction digits. -/
def toFixed8 (x : DecNum) : String :=
  let n : Int := Int.fdiv (2 * x.m * 10 ^ 8 + 10 ^ x.e) (2 * 10 ^ x.e)
  let sign : List Char := if n < 0 then ['-'] else []
  let intPart := natToChars (n.natAbs / 10 ^ 8)
  let fracPart := padStartZeros (natToChars (n.natAbs % 10 ^ 8)) 8
  ⟨sign ++ intPart ++ '.' :: fracPart⟩

/-- Thousands grouping of a reversed digit list (`k` counts digits since
the last separator). -/
def groupRev : List Char → Nat → List Char
  | [], _ => []
  | c :: cs, k => if k = 3 then ',' :: c :: groupRev cs 1 else c :: groupRev cs (k + 1)

/-- `formatNumber` (lines 75-77): `toLocaleString('en-US',
{maximumFractionDigits: 0})` — round to the nearest integer (ties away
from zero, Intl's default `halfExpand`) and group thousands. -/
def formatNumber (x : DecNum) : String :=
  let mag : Nat := (Int.fdiv (2 * (x.m.natAbs : Int) + 10 ^ x.e) (2 * 10 ^ x.e)).toNat
  let digits := (groupRev (natToChars mag).reverse 0).reverse
  ⟨if x.m < 0 then '-' :: digits else digits⟩

/-- `calculateTotal` (lines 79-83):
`tokens.reduce((sum, t) => sum + (parseFloat(t.supply) || 0), 0).toFixed(8)`.
`parseFloat(...) || 0` turns `NaN` into `0`. -/
def calculateTotal (tokens : List TokenSupply) : String :=
  toFixed8 (tokens.foldl (fun sum token => sum.add ((parseFloatNum token.supply).getD ⟨0, 0⟩)) ⟨0, 0⟩)

/-- The grand total of the main handler (line 499):
`(parseFloat(ethTotal) + parseFloat(solTotal)).toFixed(8)`; a `NaN`
operand would render as `"NaN"`. -/
def grandTotalOf (ethTotal solTotal : String) : String :=
  match parseFloatNum ethTotal, parseFloatNum solTotal with
  | some a, some b => toFixed8 (a.add b)
  | _, _ => "NaN"

/-! ### Bitcoin reference reader (src/index.ts lines 230-258) -/

/-- The stats JSON body: `res.data?.circulation`, `none` when absent or
not a JS number. -/
structure BtcStats where
  circulation : Option DecNum
deriving DecidableEq

/-- `fetchBitcoinSupply` (lines 231-258).  The whole body sits in a
`try`/`catch` returning `'0'`: an exhausted retry budget, a missing or
non-numeric figure, a negative figure or one above
`21_000_000 * 10 ** 8` all yield `"0"`; a valid figure is divided by
`10 ** 8` and formatted. -/
def fetchBitcoinSupply (api : Nat → Except Unit BtcStats) (attempts delay : Nat) : String :=
  match (withRetry api attempts delay).result with
  | Except.error _ => "0"
  | Except.ok res =>
    match res.circulation with
    | none => "0"
    | some supplySatoshis =>
      if supplySatoshis.blt ⟨0, 0⟩ || DecNum.blt ⟨21000000 * 10 ^ 8, 0⟩ supplySatoshis then "0"
      else formatNumber (supplySatoshis.divPow10 8)


/-! ### Basic lemmas about the retry loop -/

/-- A successful attempt returns immediately: one call, no sleeps. -/
theorem withRetryGo_ok {op : Nat → Except E A} {i : Nat} {a : A}
    (h : op i = Except.ok a) (d r : Nat) :
    withRetryGo op d i (r + 1) = ⟨Except.ok a, 1, []⟩ := by
  unfold withRetryGo
  rw [h]

/-- A failure on the final attempt re-raises that failure. -/
theorem withRetryGo_err_last {op : Nat → Except E A} {i : Nat} {e : E}
    (h : op i = Except.error e) (d : Nat) :
    withRetryGo op d i 1 = ⟨Except.error (RetryError.opErr e), 1, []⟩ := by
  unfold withRetryGo
  rw [h]
  simp

/-- A failure on a non-final attempt sleeps `d * 2 ^ i` and recurses. -/
theorem withRetryGo_err_step {op : Nat → Except E A} {i : Nat} {e : E}
    (h : op i = Except.error e) (d r : Nat) (hr : r ≠ 0) :
    withRetryGo op d i (r + 1) =
      ⟨(withRetryGo op d (i + 1) r).result, (withRetryGo op d (i + 1) r).calls + 1,
        d * 2 ^ i :: (withRetryGo op d (i + 1) r).delays⟩ := by
  conv_lhs => rw [withRetryGo]
  rw [h]
  simp [hr]

/-- Three attempts that all fail: three calls, two back-off sleeps, and
the third attempt's error is re-raised. -/
theorem withRetry3_allFail (op : Nat → Except E A) (d : Nat) (e : Nat → E)
    (hf : ∀ i, op i = Except.error (e i)) :
    withRetry op 3 d = ⟨Except.error (RetryError.opErr (e 2)), 3, [d * 2 ^ 0, d * 2 ^ 1]⟩ := by
  have s2 : withRetryGo op d 2 1 = ⟨Except.error (RetryError.opErr (e 2)), 1, []⟩ :=
    withRetryGo_err_last (hf 2) d
  have s1 : withRetryGo op d 1 2 =
      ⟨(withRetryGo op d 2 1).result, (withRetryGo op d 2 1).calls + 1,
        d * 2 ^ 1 :: (withRetryGo op d 2 1).delays⟩ :=
    withRetryGo_err_step (hf 1) d 1 one_ne_zero
  have s0 : withRetryGo op d 0 3 =
      ⟨(withRetryGo op d 1 2).result, (withRetryGo op d 1 2).calls + 1,
        d * 2 ^ 0 :: (withRetryGo op d 1 2).delays⟩ :=
    withRetryGo_err_step (hf 0) d 2 two_ne_zero
  rw [withRetry, s0, s1, s2]

/-- C4: with `maxAttempts = 3`, an operation failing exactly twice then
succeeding returns the success value after 3 calls and exactly 2
back-off sleeps of `b * 2 ^ 0` and `b * 2 ^ 1` ms; an operation that
always fails is called 3 times, sleeps the same two delays (total
`b * (1 + 2)`), and has its final failure re-raised. -/
theorem withRetry_c4 (op1 op2 : Nat → Except E A) (b : Nat) (v : A)
    (e0 e1 : E) (err : Nat → E)
    (h0 : op1 0 = Except.error e0) (h1 : op1 1 = Except.error e1) (h2 : op1 2 = Except.ok v)
    (hf : ∀ i, op2 i = Except.error (err i)) :
    withRetry op1 3 b = ⟨Except.ok v, 3, [b * 2 ^ 0, b * 2 ^ 1]⟩ ∧
    (withRetry op1 3 b).delays.length = 2 ∧
    withRetry op2 3 b = ⟨Except.error (RetryError.opErr (err 2)), 3, [b * 2 ^ 0, b * 2 ^ 1]⟩ ∧
    (withRetry op2 3 b).delays.sum = b * (1 + 2) := by
  have s2 : withRetryGo op1 b 2 1 = ⟨Except.ok v, 1, []⟩ := withRetryGo_ok h2 b 0
  have s1 : withRetryGo op1 b 1 2 =
      ⟨(withRetryGo op1 b 2 1).result, (withRetryGo op1 b 2 1).calls + 1,
        b * 2 ^ 1 :: (withRetryGo op1 b 2 1).delays⟩ :=
    withRetryGo_err_step h1 b 1 one_ne_zero
  have s0 : withRetryGo op1 b 0 3 =
      ⟨(withRetryGo op1 b 1 2).result, (withRetryGo op1 b 1 2).calls + 1,
        b * 2 ^ 0 :: (withRetryGo op1 b 1 2).delays⟩ :=
    withRetryGo_err_step h0 b 2 two_ne_zero
  have t1 : withRetry op1 3 b = ⟨Except.ok v, 3, [b * 2 ^ 0, b * 2 ^ 1]⟩ := by
    rw [withRetry, s0, s1, s2]
  have t2 := withRetry3_allFail op2 b err hf
  refine ⟨t1, ?_, t2, ?_⟩
  · rw [t1]
    rfl
  · rw [t2]
    show b * 2 ^ 0 + (b * 2 ^ 1 + 0) = b * (1 + 2)
    ring

/-- Witness for C4 at concrete operations. -/
theorem withRetry_c4_witness :
    withRetry (fun i => if i = 2 then (Except.ok 7 : Except Nat Nat) else Except.error i) 3 10
      = ⟨Except.ok 7, 3, [10 * 2 ^ 0, 10 * 2 ^ 1]⟩ ∧
    (withRetry (fun i => if i = 2 then (Except.ok 7 : Except Nat Nat) else Except.error i) 3 10).delays.length = 2 ∧
    withRetry (fun i => (Except.error i : Except Nat Nat)) 3 10
      = ⟨Except.error (RetryError.opErr 2), 3, [10 * 2 ^ 0, 10 * 2 ^ 1]⟩ ∧
    (withRetry (fun i => (Except.error i : Except Nat Nat)) 3 10).delays.sum = 10 * (1 + 2) :=
  withRetry_c4 _ _ 10 7 0 1 (fun i => i) rfl rfl rfl (fun _ => rfl)

/-- C10: calling `withRetry` with `attempts ≤ 0` never runs the loop
body: the wrapped operation is invoked zero times and the generic
`'Retry attempts exhausted'` error is raised. -/
theorem withRetryJS_c10 (op : Nat → Except E A) (d : Nat) (attempts : Int)
    (h : attempts ≤ 0) :
    withRetryJS op attempts d = ⟨Except.error RetryError.exhausted, 0, []⟩ := by
  unfold withRetryJS
  rw [Int.toNat_of_nonpos h]
  rfl

/-- Witness for C10 at `attempts = -2`. -/
theorem withRetryJS_c10_witness :
    withRetryJS (fun i => (Except.error i : Except Nat Nat)) (-2) 5
      = ⟨Except.error RetryError.exhausted, 0, []⟩ :=
  withRetryJS_c10 _ 5 (-2) (by decide)

/-! ### C1: the Ethereum fallback endpoint is dead code -/

/-- C1 (refuting evaluation): with a primary endpoint whose every call
attempt fails and a healthy fallback endpoint (supply `150000000`,
decimals `8`, so a fallback-derived supply of `"1.5"`), every output
entry still carries supply `"0"`: `fetchSingleSupply` absorbs the
primary's failure into a resolved `'0'` result, so `withRetry` never
observes a rejection and the `.catch` fallback branch never runs. -/
theorem fetchEthereumSupplies_c1_bug :
    (fetchEthereumSupplies (fun _ _ _ => Except.error ())
        (fun _ callData =>
          Except.ok ⟨false, some (Except.ok (if callData = TOTAL_SUPPLY_SIG then 150000000 else 8))⟩)).map
        TokenSupply.supply = ["0", "0", "0", "0", "0"] ∧
    (fetchSingleSupply ⟨"wBTC", "0x2260FAC5E5542a773Aa44fBCfeDf7C193bc2C599"⟩
        (fun _ callData =>
          Except.ok ⟨false, some (Except.ok (if callData = TOTAL_SUPPLY_SIG then 150000000 else 8))⟩)).supply
      = "1.5" := by decide

/-! ### C2: an exhausted Solana retry budget propagates -/

/-- C2 (counterexample to the claim as stated): when the batched call
fails on every retry attempt, `fetchSolanaSupplies` does NOT return the
all-zero list — the error escapes the reader. -/
theorem fetchSolanaSupplies_c2_counterexample :
    fetchSolanaSupplies (fun _ => Except.error ()) 3 1000 = Except.error (RetryError.opErr ()) ∧
    fetchSolanaSupplies (fun _ => Except.error ()) 3 1000
      ≠ Except.ok (solTokens.map fun t => ⟨t.symbol, "0", none, some t.mint⟩) := by
  have h := withRetry3_allFail (fun _ => (Except.error () : Except Unit SolanaRpcResponse)) 1000
    (fun _ => ()) (fun _ => rfl)
  constructor
  · show fetchSolanaSuppliesFor solTokens (fun _ => Except.error ()) 3 1000 = _
    unfold fetchSolanaSuppliesFor
    rw [h]
  · show fetchSolanaSuppliesFor solTokens (fun _ => Except.error ()) 3 1000 ≠ _
    unfold fetchSolanaSuppliesFor
    rw [h]
    intro hc
    cases hc

/-- C2 (amended): an exhausted retry budget on the batched call makes the
error propagate out of `fetchSolanaSupplies` (caught only by the
worker's top-level handler); the all-zero-supply list is produced — with
no exception — exactly when the batched call itself resolves but its
body carries no `result.value`. -/
theorem fetchSolanaSupplies_c2_amended (rpc1 rpc2 : Nat → Except Unit SolanaRpcResponse)
    (delay : Nat)
    (h1 : ∀ i, rpc1 i = Except.error ())
    (h2 : ∀ i, rpc2 i = Except.ok ⟨none⟩) :
    fetchSolanaSupplies rpc1 3 delay = Except.error (RetryError.opErr ()) ∧
    fetchSolanaSupplies rpc2 3 delay
      = Except.ok (solTokens.map fun t => ⟨t.symbol, "0", none, some t.mint⟩) := by
  constructor
  · show fetchSolanaSuppliesFor solTokens rpc1 3 delay = _
    unfold fetchSolanaSuppliesFor
    rw [withRetry3_allFail rpc1 delay (fun _ => ()) (fun i => h1 i)]
  · show fetchSolanaSuppliesFor solTokens rpc2 3 delay = _
    unfold fetchSolanaSuppliesFor
    rw [show (3 : Nat) = 2 + 1 from rfl, withRetry, withRetryGo_ok (h2 0) delay 2]

/-- Witness for the amended C2 at concrete endpoints. -/
theorem fetchSolanaSupplies_c2_amended_witness :
    fetchSolanaSupplies (fun _ => Except.error ()) 3 1000 = Except.error (RetryError.opErr ()) ∧
    fetchSolanaSupplies (fun _ => Except.ok ⟨none⟩) 3 1000
      = Except.ok (solTokens.map fun t => ⟨t.symbol, "0", none, some t.mint⟩) :=
  fetchSolanaSupplies_c2_amended _ _ 1000 (fun _ => rfl) (fun _ => rfl)

/-! ### C9: Bitcoin reference validation -/

/-- C9: an exhausted call budget, a missing/non-numeric figure, and a
negative or too-large figure all make `fetchBitcoinSupply` return the
string `"0"` (the reader's `try`/`catch` absorbs the internal throw). -/
theorem fetchBitcoinSupply_c9 (api1 api2 api3 : Nat → Except Unit BtcStats)
    (attempts delay : Nat) (s : DecNum)
    (h1 : ∀ i, api1 i = Except.error ())
    (h2 : ∀ i, api2 i = Except.ok ⟨some s⟩)
    (h3 : ∀ i, api3 i = Except.ok ⟨none⟩)
    (hs : s.blt ⟨0, 0⟩ = true ∨ DecNum.blt ⟨21000000 * 10 ^ 8, 0⟩ s = true) :
    fetchBitcoinSupply api1 attempts delay = "0" ∧
    fetchBitcoinSupply api2 (attempts + 1) delay = "0" ∧
    fetchBitcoinSupply api3 (attempts + 1) delay = "0" := by
  refine ⟨?_, ?_, ?_⟩
  · have hall : ∀ i r, ∃ e, (withRetryGo api1 delay i r).result = Except.error e := by
      intro i r
      induction r generalizing i with
      | zero => exact ⟨RetryError.exhausted, rfl⟩
      | succ n ih =>
        by_cases hn : n = 0
        · subst hn
          exact ⟨RetryError.opErr (), by rw [withRetryGo_err_last (h1 i) delay]⟩
        · obtain ⟨e, he⟩ := ih (i + 1)
          exact ⟨e, by rw [withRetryGo_err_step (h1 i) delay n hn]; exact he⟩
    obtain ⟨e, he⟩ := hall 0 attempts
    unfold fetchBitcoinSupply
    rw [withRetry, he]
  · have hcond : (s.blt ⟨0, 0⟩ || DecNum.blt ⟨21000000 * 10 ^ 8, 0⟩ s) = true := by
      rcases hs with hlt | hgt
      · rw [hlt, Bool.true_or]
      · rw [hgt, Bool.or_true]
    simp only [fetchBitcoinSupply, withRetry, withRetryGo_ok (h2 0) delay attempts, hcond,
      if_true]
  · unfold fetchBitcoinSupply
    rw [withRetry, withRetryGo_ok (h3 0) delay attempts]

/-- Witness for C9: dead endpoint, negative figure (`-5` satoshis) and
missing figure all yield `"0"`. -/
theorem fetchBitcoinSupply_c9_witness :
    fetchBitcoinSupply (fun _ => Except.error ()) 2 1000 = "0" ∧
    fetchBitcoinSupply (fun _ => Except.ok ⟨some ⟨-5, 0⟩⟩) (2 + 1) 1000 = "0" ∧
    fetchBitcoinSupply (fun _ => Except.ok ⟨none⟩) (2 + 1) 1000 = "0" :=
  fetchBitcoinSupply_c9 _ _ _ 2 1000 ⟨-5, 0⟩ (fun _ => rfl) (fun _ => rfl) (fun _ => rfl)
    (Or.inl (by decide))

/-! ### Shape lemmas for C5 -/

/-- `fetchSingleSupply` always carries the configured symbol/address. -/
theorem fetchSingleSupply_shape (t : EthToken) (rpc : EthRpc) :
    (fetchSingleSupply t rpc).symbol = t.symbol ∧
    (fetchSingleSupply t rpc).address = some t.address ∧
    (fetchSingleSupply t rpc).mint = none := by
  refine ⟨?_, ?_, ?_⟩ <;> (unfold fetchSingleSupply; repeat' split) <;> rfl

/-- With at least one attempt, the retried operation around
`fetchSingleSupply` succeeds immediately (it always resolves), so the
primary path's first result is returned. -/
theorem ethTokenResult_succ (t : EthToken) (p : Nat → EthRpc) (fb : EthRpc) (n d : Nat) :
    ethTokenResult t p fb (n + 1) d = fetchSingleSupply t (p 0) := by
  have h : (fun i => (Except.ok (fetchSingleSupply t (p i)) : Except Unit TokenSupply)) 0
      = Except.ok (fetchSingleSupply t (p 0)) := rfl
  unfold ethTokenResult
  rw [withRetry, withRetryGo_ok h d n]

/-- With zero attempts the exhausted error takes the `.catch` path. -/
theorem ethTokenResult_zero (t : EthToken) (p : Nat → EthRpc) (fb : EthRpc) (d : Nat) :
    ethTokenResult t p fb 0 d = fetchSingleSupply t fb := rfl

/-- `ethTokenResult` always carries the configured symbol/address. -/
theorem ethTokenResult_shape (t : EthToken) (p : Nat → EthRpc) (fb : EthRpc) (a d : Nat) :
    (ethTokenResult t p fb a d).symbol = t.symbol ∧
    (ethTokenResult t p fb a d).address = some t.address ∧
    (ethTokenResult t p fb a d).mint = none := by
  cases a with
  | zero => rw [ethTokenResult_zero]; exact fetchSingleSupply_shape t fb
  | succ n => rw [ethTokenResult_succ]; exact fetchSingleSupply_shape t (p 0)

/-- `decodeSolToken` always carries the configured symbol/mint. -/
theorem decodeSolToken_shape (t : SolToken) (acc : Option SolAccount) :
    (decodeSolToken t acc).symbol = t.symbol ∧
    (decodeSolToken t acc).mint = some t.mint := by
  refine ⟨?_, ?_⟩ <;> (unfold decodeSolToken; repeat' split) <;> rfl

/-- `mapWithIdx` preserves length. -/
theorem mapWithIdx_length (f : Nat → α → β) (l : List α) :
    ∀ i, (mapWithIdx f i l).length = l.length := by
  induction l with
  | nil => intro i; rfl
  | cons a as ih => intro i; simp [mapWithIdx, ih]

/-- Mapping an index-independent projection over `mapWithIdx`. -/
theorem mapWithIdx_map (f : Nat → α → β) (g : β → γ) (h : α → γ)
    (hg : ∀ i a, g (f i a) = h a) (l : List α) :
    ∀ i, (mapWithIdx f i l).map g = l.map h := by
  induction l with
  | nil => intro i; rfl
  | cons a as ih => intro i; simp [mapWithIdx, hg, ih]

/-- C5: both readers' outputs are positionally 1:1 with the static token
configuration: same length, and the entry at each index carries that
index's configured symbol and address/mint (so a failed token's entry
can differ from a healthy one only in its `supply` string). -/
theorem readers_c5 (tokens : List EthToken) (stoks : List SolToken)
    (primary : Nat → EthRpc) (fallback : EthRpc)
    (rpc : Nat → Except Unit SolanaRpcResponse) (attempts delay : Nat)
    (out : List TokenSupply)
    (hsol : fetchSolanaSuppliesFor stoks rpc attempts delay = Except.ok out) :
    (fetchEthereumSuppliesFor tokens primary fallback).length = tokens.length ∧
    (fetchEthereumSuppliesFor tokens primary fallback).map (fun ts => (ts.symbol, ts.address))
      = tokens.map (fun t => (t.symbol, some t.address)) ∧
    out.length = stoks.length ∧
    out.map (fun ts => (ts.symbol, ts.mint)) = stoks.map (fun t => (t.symbol, some t.mint)) := by
  have heth2 : ∀ toks : List EthToken,
      (fetchEthereumSuppliesFor toks primary fallback).map (fun ts => (ts.symbol, ts.address))
        = toks.map (fun t => (t.symbol, some t.address)) := by
    intro toks
    induction toks with
    | nil => rfl
    | cons t ts ih =>
      obtain ⟨h1, h2, _⟩ := ethTokenResult_shape t primary fallback RETRY_ATTEMPTS RETRY_DELAY
      simp only [fetchEthereumSuppliesFor, List.map_cons] at ih ⊢
      rw [h1, h2, ih]
  have hsolShape : out.length = stoks.length ∧
      out.map (fun ts => (ts.symbol, ts.mint)) = stoks.map (fun t => (t.symbol, some t.mint)) := by
    unfold fetchSolanaSuppliesFor at hsol
    split at hsol
    · cases hsol
    · split at hsol
      · injection hsol with hout
        subst hout
        constructor
        · exact List.length_map _ _
        · rw [List.map_map]
          rfl
      · injection hsol with hout
        subst hout
        constructor
        · exact mapWithIdx_length _ _ 0
        · refine mapWithIdx_map _ _ _ (fun i a => ?_) stoks 0
          refine Prod.ext ?_ ?_
          · exact (decodeSolToken_shape a _).1
          · exact (decodeSolToken_shape a _).2
  refine ⟨?_, heth2 tokens, hsolShape.1, hsolShape.2⟩
  unfold fetchEthereumSuppliesFor
  exact List.length_map _ _

/-- Witness for C5 at the configured token lists and concrete
endpoints. -/
theorem readers_c5_witness :
    (fetchEthereumSuppliesFor ethTokens (fun _ _ _ => Except.error ()) (fun _ _ => Except.error ())).length
        = ethTokens.length ∧
    (fetchEthereumSuppliesFor ethTokens (fun _ _ _ => Except.error ())
        (fun _ _ => Except.error ())).map (fun ts => (ts.symbol, ts.address))
      = ethTokens.map (fun t => (t.symbol, some t.address)) ∧
    (solTokens.map fun t => (⟨t.symbol, "0", none, some t.mint⟩ : TokenSupply)).length = solTokens.length ∧
    (solTokens.map fun t => (⟨t.symbol, "0", none, some t.mint⟩ : TokenSupply)).map
        (fun ts => (ts.symbol, ts.mint))
      = solTokens.map (fun t => (t.symbol, some t.mint)) :=
  readers_c5 ethTokens solTokens (fun _ _ _ => Except.error ()) (fun _ _ => Except.error ())
    (fun _ => Except.ok ⟨none⟩) 3 1000 (solTokens.map fun t => ⟨t.symbol, "0", none, some t.mint⟩)
    (by decide)

/-! ### C6: one null entry in the batch does not corrupt siblings -/

/-- C6: for any batched response whose entry at index 2 is null/absent,
the reader returns a list whose index-2 entry has supply `"0"`, while
every other index is exactly the independent decode of its own blob —
and decodes normally (`formatUnits` of its amount and decimals fields)
whenever that blob is well-formed. -/
theorem fetchSolanaSupplies_c6 (accounts : List (Option SolAccount))
    (h2 : accounts.getD 2 none = none) :
    fetchSolanaSupplies (fun _ => Except.ok ⟨some accounts⟩) 3 1000
      = Except.ok (mapWithIdx (fun idx token => decodeSolToken token (accounts.getD idx none)) 0 solTokens) ∧
    ((mapWithIdx (fun idx token => decodeSolToken token (accounts.getD idx none)) 0 solTokens).getD 2
        ⟨"", "", none, none⟩).supply = "0" ∧
    (∀ i, i < 6 → i ≠ 2 →
      (mapWithIdx (fun idx token => decodeSolToken token (accounts.getD idx none)) 0 solTokens).getD i
          ⟨"", "", none, none⟩
        = decodeSolToken (solTokens.getD i ⟨"", ""⟩) (accounts.getD i none)) ∧
    (∀ i data, i < 6 → i ≠ 2 → accounts.getD i none = some ⟨some (Except.ok data)⟩ →
      ¬ data.length < 44 →
      ((mapWithIdx (fun idx token => decodeSolToken token (accounts.getD idx none)) 0 solTokens).getD i
          ⟨"", "", none, none⟩).supply
        = formatUnits (solRawAmount data) (solDecimals data)) := by
  have hok : (fun _ => (Except.ok ⟨some accounts⟩ : Except Unit SolanaRpcResponse)) 0
      = Except.ok ⟨some accounts⟩ := rfl
  refine ⟨?_, ?_, ?_, ?_⟩
  · show fetchSolanaSuppliesFor solTokens _ 3 1000 = _
    unfold fetchSolanaSuppliesFor
    rw [withRetry, withRetryGo_ok hok 1000 2]
  · simp only [solTokens, mapWithIdx]
    show (decodeSolToken ⟨"pBTC", "DYDWu4hE4MN3aH897xQ3sRTs5EAjJDmQsKLNhbpUiKun"⟩
        (accounts.getD (0 + 1 + 1) none)).supply = "0"
    have : accounts.getD (0 + 1 + 1) none = none := h2
    rw [this]
    rfl
  · intro i hi hne
    interval_cases i
    · rfl
    · rfl
    · exact absurd rfl hne
    · rfl
    · rfl
    · rfl
  · intro i data hi hne hacc hlen
    have hstep : ∀ t : SolToken, (decodeSolToken t (some ⟨some (Except.ok data)⟩)).supply
        = formatUnits (solRawAmount data) (solDecimals data) := by
      intro t
      simp [decodeSolToken, hlen]
    interval_cases i
    · show (decodeSolToken _ (accounts.getD 0 none)).supply = _
      rw [hacc]
      exact hstep _
    · show (decodeSolToken _ (accounts.getD 1 none)).supply = _
      rw [hacc]
      exact hstep _
    · exact absurd rfl hne
    · show (decodeSolToken _ (accounts.getD 3 none)).supply = _
      rw [hacc]
      exact hstep _
    · show (decodeSolToken _ (accounts.getD 4 none)).supply = _
      rw [hacc]
      exact hstep _
    · show (decodeSolToken _ (accounts.getD 5 none)).supply = _
      rw [hacc]
      exact hstep _

/-- Witness for C6: five healthy 45-byte blobs (amount `5000000000`,
decimals byte 8) around a null index 2. -/
theorem fetchSolanaSupplies_c6_witness :
    fetchSolanaSupplies
        (fun _ => Except.ok ⟨some [some ⟨some (Except.ok (List.replicate 36 0 ++ [0, 242, 5, 42, 1, 0, 0, 0] ++ [8]))⟩,
          some ⟨some (Except.ok (List.replicate 36 0 ++ [0, 242, 5, 42, 1, 0, 0, 0] ++ [8]))⟩, none,
          some ⟨some (Except.ok (List.replicate 36 0 ++ [0, 242, 5, 42, 1, 0, 0, 0] ++ [8]))⟩,
          some ⟨some (Except.ok (List.replicate 36 0 ++ [0, 242, 5, 42, 1, 0, 0, 0] ++ [8]))⟩,
          some ⟨some (Except.ok (List.replicate 36 0 ++ [0, 242, 5, 42, 1, 0, 0, 0] ++ [8]))⟩]⟩) 3 1000
      = Except.ok (mapWithIdx
          (fun idx token => decodeSolToken token
            (([some ⟨some (Except.ok (List.replicate 36 0 ++ [0, 242, 5, 42, 1, 0, 0, 0] ++ [8]))⟩,
              some ⟨some (Except.ok (List.replicate 36 0 ++ [0, 242, 5, 42, 1, 0, 0, 0] ++ [8]))⟩, none,
              some ⟨some (Except.ok (List.replicate 36 0 ++ [0, 242, 5, 42, 1, 0, 0, 0] ++ [8]))⟩,
              some ⟨some (Except.ok (List.replicate 36 0 ++ [0, 242, 5, 42, 1, 0, 0, 0] ++ [8]))⟩,
              some ⟨some (Except.ok (List.replicate 36 0 ++ [0, 242, 5, 42, 1, 0, 0, 0] ++ [8]))⟩] :
                List (Option SolAccount)).getD idx none)) 0 solTokens) ∧
    ((mapWithIdx
        (fun idx token => decodeSolToken token
          (([some ⟨some (Except.ok (List.replicate 36 0 ++ [0, 242, 5, 42, 1, 0, 0, 0] ++ [8]))⟩,
            some ⟨some (Except.ok (List.replicate 36 0 ++ [0, 242, 5, 42, 1, 0, 0, 0] ++ [8]))⟩, none,
            some ⟨some (Except.ok (List.replicate 36 0 ++ [0, 242, 5, 42, 1, 0, 0, 0] ++ [8]))⟩,
            some ⟨some (Except.ok (List.replicate 36 0 ++ [0, 242, 5, 42, 1, 0, 0, 0] ++ [8]))⟩,
            some ⟨some (Except.ok (List.replicate 36 0 ++ [0, 242, 5, 42, 1, 0, 0, 0] ++ [8]))⟩] :
              List (Option SolAccount)).getD idx none)) 0 solTokens).getD 2
        ⟨"", "", none, none⟩).supply = "0" :=
  ⟨(fetchSolanaSupplies_c6 _ (by decide)).1, (fetchSolanaSupplies_c6 _ (by decide)).2.1⟩

/-! ### C7: the decimals byte -/

/-- C7 (counterexample to the claim as stated): a well-formed 45-byte
blob with amount `150000000` and decimals byte `0` decodes as
`formatUnits 150000000 8 = "1.5"` — the code's `data[44] || 8` treats
the zero byte as falsy and substitutes 8 — not as
`formatUnits 150000000 0 = "150000000"`, which interpreting the byte as
its unsigned value 0 would give. -/
theorem decodeSolToken_c7_counterexample :
    solRawAmount (List.replicate 36 0 ++ [128, 209, 240, 8, 0, 0, 0, 0] ++ [0]) = 150000000 ∧
    (List.replicate 36 0 ++ [128, 209, 240, 8, 0, 0, 0, 0] ++ [0]).getD 44 0 = 0 ∧
    decodeSolToken ⟨"wBTC", "3NZ9JMVBmGAqocybic2c7LQCJScmgsAZ6vQqTDzcqmJh"⟩
        (some ⟨some (Except.ok (List.replicate 36 0 ++ [128, 209, 240, 8, 0, 0, 0, 0] ++ [0]))⟩)
      = ⟨"wBTC", "1.5", none, some "3NZ9JMVBmGAqocybic2c7LQCJScmgsAZ6vQqTDzcqmJh"⟩ ∧
    formatUnits 150000000 0 = "150000000" ∧
    ("1.5" : String) ≠ "150000000" := by decide

/-- C7 (amended): for a well-formed blob the decimals byte is used as its
unsigned value only when it is nonzero; a zero or missing byte — like an
absent or malformed blob — falls back to the default 8. -/
theorem decodeSolToken_c7_amended (t : SolToken) (data : List Nat)
    (hlen : ¬ data.length < 44) (hbyte : data.getD 44 0 ≠ 0) :
    decodeSolToken t (some ⟨some (Except.ok data)⟩)
      = ⟨t.symbol, formatUnits (solRawAmount data) (data.getD 44 0), none, some t.mint⟩ ∧
    ∀ data2 : List Nat, ¬ data2.length < 44 → data2.getD 44 0 = 0 →
      decodeSolToken t (some ⟨some (Except.ok data2)⟩)
        = ⟨t.symbol, formatUnits (solRawAmount data2) 8, none, some t.mint⟩ := by
  constructor
  · show (if data.length < 44 then (⟨t.symbol, "0", none, some t.mint⟩ : TokenSupply)
        else ⟨t.symbol, formatUnits (solRawAmount data) (solDecimals data), none, some t.mint⟩) = _
    rw [if_neg hlen]
    unfold solDecimals
    rw [if_neg hbyte]
  · intro data2 hl2 hb2
    show (if data2.length < 44 then (⟨t.symbol, "0", none, some t.mint⟩ : TokenSupply)
        else ⟨t.symbol, formatUnits (solRawAmount data2) (solDecimals data2), none, some t.mint⟩) = _
    rw [if_neg hl2]
    unfold solDecimals
    rw [if_pos hb2]

/-- Witness for the amended C7: decimals byte 7 is used as 7; decimals
byte 0 falls back to 8. -/
theorem decodeSolToken_c7_amended_witness :
    decodeSolToken ⟨"wBTC", "m"⟩
        (some ⟨some (Except.ok (List.replicate 36 0 ++ [128, 209, 240, 8, 0, 0, 0, 0] ++ [7]))⟩)
      = ⟨"wBTC", formatUnits (solRawAmount (List.replicate 36 0 ++ [128, 209, 240, 8, 0, 0, 0, 0] ++ [7]))
          ((List.replicate 36 0 ++ [128, 209, 240, 8, 0, 0, 0, 0] ++ [7]).getD 44 0), none, some "m"⟩ ∧
    decodeSolToken ⟨"wBTC", "m"⟩
        (some ⟨some (Except.ok (List.replicate 36 0 ++ [128, 209, 240, 8, 0, 0, 0, 0] ++ [0]))⟩)
      = ⟨"wBTC", formatUnits (solRawAmount (List.replicate 36 0 ++ [128, 209, 240, 8, 0, 0, 0, 0] ++ [0])) 8,
          none, some "m"⟩ :=
  ⟨(decodeSolToken_c7_amended _ _ (by decide) (by decide)).1,
   (decodeSolToken_c7_amended ⟨"wBTC", "m"⟩ (List.replicate 36 0 ++ [128, 209, 240, 8, 0, 0, 0, 0] ++ [7])
      (by decide) (by decide)).2 _ (by decide) (by decide)⟩

/-! ### C8: end-to-end aggregation -/

/-- C8: with a primary Ethereum endpoint answering raw supply
`100_00000000` and decimals `8` for each of the 5 configured tokens
(each decoding to `"100"`), and Solana blobs carrying amount
`50_00000000` with decimals byte 8 for each of the 6 configured tokens
(each decoding to `"50"`), `calculateTotal` yields
`ethereumTotal = "500.00000000"` and `solanaTotal = "300.00000000"`,
and the handler's grand total is `"800.00000000"`; a list of six
entries whose supply strings are literally `"50.00000000"` sums to the
same `"300.00000000"`. -/
theorem aggregation_c8 :
    calculateTotal (fetchEthereumSupplies
        (fun _ _ callData =>
          Except.ok ⟨false, some (Except.ok (if callData = TOTAL_SUPPLY_SIG then 10000000000 else 8))⟩)
        (fun _ _ => Except.error ())) = "500.00000000" ∧
    Except.map calculateTotal
        (fetchSolanaSupplies
          (fun _ => Except.ok ⟨some (List.replicate 6
            (some ⟨some (Except.ok (List.replicate 36 0 ++ [0, 242, 5, 42, 1, 0, 0, 0] ++ [8]))⟩))⟩)
          3 1000)
      = Except.ok "300.00000000" ∧
    grandTotalOf "500.00000000" "300.00000000" = "800.00000000" ∧
    calculateTotal (solTokens.map fun t => ⟨t.symbol, "50.00000000", none, some t.mint⟩)
      = "300.00000000" := by decide

/-! ### Digit-string lemmas towards C3 -/

/-- `toDigitsAux` is sound when given enough fuel. -/
theorem toDigitsAux_sound : ∀ fuel n, n ≤ fuel → ofDigitsLE (toDigitsAux fuel n) = n := by
  intro fuel
  induction fuel with
  | zero =>
    intro n hn
    interval_cases n
    rfl
  | succ f ih =>
    intro n hn
    cases n with
    | zero => rfl
    | succ m =>
      have hdiv : (m + 1) / 10 ≤ f := by
        have h1 : (m + 1) / 10 < m + 1 := Nat.div_lt_self (Nat.succ_pos m) (by omega)
        omega
      show ofDigitsLE ((m + 1) % 10 :: toDigitsAux f ((m + 1) / 10)) = m + 1
      unfold ofDigitsLE
      rw [List.foldr_cons]
      have := ih ((m + 1) / 10) hdiv
      unfold ofDigitsLE at this
      rw [this]
      omega

/-- Every digit produced by `toDigitsAux` is below 10. -/
theorem toDigitsAux_lt10 : ∀ fuel n d, d ∈ toDigitsAux fuel n → d < 10 := by
  intro fuel
  induction fuel with
  | zero =>
    intro n d hd
    cases n <;> cases hd
  | succ f ih =>
    intro n d hd
    cases n with
    | zero => cases hd
    | succ m =>
      rcases List.mem_cons.mp hd with h | h
      · subst h
        exact Nat.mod_lt _ (by omega)
      · exact ih _ _ h

/-- Digit characters round-trip through `digitVal`. -/
theorem digitVal_digitChar (d : Nat) (h : d < 10) : digitVal (digitChar d) = d := by
  interval_cases d <;> rfl

/-- Digit characters satisfy `isDigitC`. -/
theorem isDigitC_digitChar (d : Nat) (h : d < 10) : isDigitC (digitChar d) = true := by
  interval_cases d <;> rfl

/-- Every character of `natToChars n` is a digit character. -/
theorem natToChars_digits (n : Nat) : ∀ c ∈ natToChars n, isDigitC c = true := by
  intro c hc
  unfold natToChars at hc
  by_cases hn : n = 0
  · rw [if_pos hn] at hc
    rcases List.mem_singleton.mp hc with rfl
    rfl
  · rw [if_neg hn] at hc
    rcases List.mem_reverse.mp hc with hc
    rcases List.mem_map.mp hc with ⟨d, hd, rfl⟩
    exact isDigitC_digitChar d (toDigitsAux_lt10 n n d hd)

/-- A digit character is neither a sign character nor a dot. -/
theorem isDigitC_ne (c : Char) (h : isDigitC c = true) :
    c ≠ '-' ∧ c ≠ '+' ∧ c ≠ '.' ∧ c ≠ 'e' ∧ c ≠ 'E' := by
  refine ⟨?_, ?_, ?_, ?_, ?_⟩ <;> (intro hc; subst hc; exact absurd h (by decide))

/-- Folding the `ofCharsMSB` step from an arbitrary accumulator. -/
theorem ofCharsMSB_foldl_acc (cs : List Char) :
    ∀ a : Nat, cs.foldl (fun acc c => acc * 10 + digitVal c) a
      = a * 10 ^ cs.length + ofCharsMSB cs := by
  induction cs with
  | nil => intro a; simp [ofCharsMSB]
  | cons c cs ih =>
    intro a
    show cs.foldl _ (a * 10 + digitVal c) = _
    rw [ih (a * 10 + digitVal c)]
    unfold ofCharsMSB
    show _ = a * 10 ^ (cs.length + 1) + cs.foldl _ (0 * 10 + digitVal c)
    rw [ih (0 * 10 + digitVal c)]
    have hO : List.foldl (fun acc c => acc * 10 + digitVal c) 0 cs = ofCharsMSB cs := rfl
    ring_nf
    rw [hO]
    ring

/-- `ofCharsMSB` splits over append. -/
theorem ofCharsMSB_append (xs ys : List Char) :
    ofCharsMSB (xs ++ ys) = ofCharsMSB xs * 10 ^ ys.length + ofCharsMSB ys := by
  unfold ofCharsMSB
  rw [List.foldl_append]
  exact ofCharsMSB_foldl_acc ys _

/-- Leading zero characters do not change the value. -/
theorem ofCharsMSB_replicate_zero (k : Nat) (cs : List Char) :
    ofCharsMSB (List.replicate k '0' ++ cs) = ofCharsMSB cs := by
  induction k with
  | zero => rfl
  | succ j ih =>
    show ofCharsMSB ('0' :: (List.replicate j '0' ++ cs)) = _
    unfold ofCharsMSB at ih ⊢
    show (List.replicate j '0' ++ cs).foldl _ (0 * 10 + digitVal '0') = _
    have : (0 : Nat) * 10 + digitVal '0' = 0 := rfl
    rw [this]
    exact ih

/-- A `k`-character digit string has value below `10 ^ k`. -/
theorem ofCharsMSB_lt (cs : List Char) (h : ∀ c ∈ cs, isDigitC c = true) :
    ofCharsMSB cs < 10 ^ cs.length := by
  induction cs with
  | nil => exact Nat.one_pos
  | cons c cs ih =>
    have hc : digitVal c < 10 := by
      have := h c (List.mem_cons_self c cs)
      unfold isDigitC at this
      have hle := of_decide_eq_true this
      unfold digitVal
      omega
    have hcs := ih (fun x hx => h x (List.mem_cons_of_mem c hx))
    have : ofCharsMSB (c :: cs) = digitVal c * 10 ^ cs.length + ofCharsMSB cs := by
      show ofCharsMSB ([c] ++ cs) = _
      rw [ofCharsMSB_append]
      have : ofCharsMSB [c] = digitVal c := by
        unfold ofCharsMSB
        show 0 * 10 + digitVal c = digitVal c
        omega
      rw [this]
    rw [this]
    calc digitVal c * 10 ^ cs.length + ofCharsMSB cs
        < digitVal c * 10 ^ cs.length + 10 ^ cs.length := by omega
      _ = (digitVal c + 1) * 10 ^ cs.length := by ring
      _ ≤ 10 * 10 ^ cs.length := Nat.mul_le_mul_right _ (by omega)
      _ = 10 ^ (cs.length + 1) := by ring
    
/-- `ofCharsMSB` inverts `natToChars`. -/
theorem ofCharsMSB_natToChars (n : Nat) : ofCharsMSB (natToChars n) = n := by
  unfold natToChars
  by_cases hn : n = 0
  · subst hn
    rfl
  · rw [if_neg hn]
    have key : ∀ l : List Nat, (∀ d ∈ l, d < 10) →
        ofCharsMSB ((l.map digitChar).reverse) = ofDigitsLE l := by
      intro l hl
      induction l with
      | nil => rfl
      | cons d ds ih =>
        rw [List.map_cons, List.reverse_cons, ofCharsMSB_append,
          ih (fun x hx => hl x (List.mem_cons_of_mem d hx))]
        have h1 : ofCharsMSB [digitChar d] = d := by
          show 0 * 10 + digitVal (digitChar d) = d
          rw [digitVal_digitChar d (hl d (List.mem_cons_self d ds))]
          omega
        rw [h1]
        show ofDigitsLE ds * 10 ^ 1 + d = ofDigitsLE (d :: ds)
        unfold ofDigitsLE
        rw [List.foldr_cons]
        ring
    rw [key (natDigitsLE n) (fun d hd => toDigitsAux_lt10 n n d hd)]
    exact toDigitsAux_sound n n le_rfl

/-- The first element surviving `dropWhile` refutes the predicate. -/
theorem dropWhile_head_not (p : α → Bool) :
    ∀ (l : List α) (c : α) (rest : List α), l.dropWhile p = c :: rest → p c = false := by
  intro l
  induction l with
  | nil => intro c rest h; cases h
  | cons a as ih =>
    intro c rest h
    by_cases hp : p a = true
    · rw [List.dropWhile_cons_of_pos hp] at h
      exact ih c rest h
    · rw [List.dropWhile_cons_of_neg hp] at h
      cases h
      exact Bool.not_eq_true _ |>.mp hp

/-- Every list is its zero-stripped prefix followed by a run of `'0'`s. -/
theorem stripTrailing0_decomp (cs : List Char) :
    ∃ k, cs = stripTrailing0 cs ++ List.replicate k '0' ∧
      (stripTrailing0 cs).length + k = cs.length := by
  have h1 : cs.reverse.takeWhile (fun c => c = '0') ++ cs.reverse.dropWhile (fun c => c = '0')
      = cs.reverse := List.takeWhile_append_dropWhile _ cs.reverse
  have hrep : cs.reverse.takeWhile (fun c => c = '0')
      = List.replicate (cs.reverse.takeWhile (fun c => c = '0')).length '0' := by
    apply List.eq_replicate_of_mem
    intro b hb
    have hb2 := List.mem_takeWhile_imp hb
    simpa using hb2
  refine ⟨(cs.reverse.takeWhile (fun c => c = '0')).length, ?_, ?_⟩
  · conv_lhs => rw [← List.reverse_reverse cs, ← h1]
    rw [List.reverse_append]
    unfold stripTrailing0
    congr 1
    conv_lhs => rw [hrep]
    rw [List.reverse_replicate]
  · unfold stripTrailing0
    rw [List.length_reverse]
    have := congrArg List.length h1
    rw [List.length_append, List.length_reverse] at this
    omega

/-- The zero-stripped prefix never ends in `'0'`. -/
theorem stripTrailing0_getLast (cs : List Char) (c : Char)
    (hc : (stripTrailing0 cs).getLast? = some c) : c ≠ '0' := by
  unfold stripTrailing0 at hc
  rw [List.getLast?_eq_head?_reverse, List.reverse_reverse] at hc
  cases hr : cs.reverse.dropWhile (fun c => c = '0') with
  | nil => rw [hr] at hc; cases hc
  | cons x rest =>
    rw [hr] at hc
    injection hc with hxc
    subst hxc
    have := dropWhile_head_not _ _ _ _ hr
    intro hc0
    rw [hc0] at this
    simp at this

/-- Stripping an all-zero list yields the empty list. -/
theorem stripTrailing0_all_zero (l : List Char) (h : ∀ c ∈ l, c = '0') :
    stripTrailing0 l = [] := by
  unfold stripTrailing0
  have hz : l.reverse.dropWhile (fun c => c = '0') = [] := by
    rw [List.dropWhile_eq_nil_iff]
    intro x hx
    have := h x (List.mem_reverse.mp hx)
    rw [this]
    rfl
  rw [hz]
  rfl

/-- `splitSign` leaves a digit-headed string untouched. -/
theorem splitSign_digit (c : Char) (cs : List Char) (h : isDigitC c = true) :
    splitSign (c :: cs) = (false, c :: cs) := by
  obtain ⟨h1, h2, _, _, _⟩ := isDigitC_ne c h
  show (if c = '-' then (true, cs) else if c = '+' then (false, cs) else (false, c :: cs))
    = (false, c :: cs)
  rw [if_neg h1, if_neg h2]

/-- `parseFloatNum` on a pure digit string. -/
theorem parseFloatNum_digits (A : List Char) (hne : A ≠ [])
    (hd : ∀ c ∈ A, isDigitC c = true) :
    parseFloatNum ⟨A⟩ = some ⟨(ofCharsMSB A : Int), 0⟩ := by
  obtain ⟨a, as, rfl⟩ := List.exists_cons_of_ne_nil hne
  have hsplit := splitSign_digit a as (hd a (List.mem_cons_self a as))
  have htake : (a :: as).takeWhile isDigitC = a :: as := List.takeWhile_eq_self_iff.mpr hd
  have hdrop : (a :: as).dropWhile isDigitC = [] := List.dropWhile_eq_nil_iff.mpr hd
  simp [parseFloatNum, hsplit, htake, hdrop]
  rfl

/-- `parseFloatNum` on a digit string with a dot and fraction digits. -/
theorem parseFloatNum_digits_frac (A F : List Char) (hne : A ≠ [])
    (hdA : ∀ c ∈ A, isDigitC c = true) (hdF : ∀ c ∈ F, isDigitC c = true) :
    parseFloatNum ⟨A ++ '.' :: F⟩
      = some ⟨(ofCharsMSB A * 10 ^ F.length + ofCharsMSB F : Int), F.length⟩ := by
  obtain ⟨a, as, rfl⟩ := List.exists_cons_of_ne_nil hne
  have hsplit : splitSign (a :: (as ++ '.' :: F)) = (false, a :: (as ++ '.' :: F)) :=
    splitSign_digit a _ (hdA a (List.mem_cons_self a as))
  have htake : ((a :: as) ++ '.' :: F).takeWhile isDigitC = (a :: as) ++ ('.' :: F).takeWhile isDigitC :=
    List.takeWhile_append_of_pos hdA
  have htake2 : ('.' :: F).takeWhile isDigitC = [] := List.takeWhile_cons_of_neg (by decide)
  have hdrop : ((a :: as) ++ '.' :: F).dropWhile isDigitC = ('.' :: F).dropWhile isDigitC :=
    List.dropWhile_append_of_pos hdA
  have hdrop2 : ('.' :: F).dropWhile isDigitC = '.' :: F := List.dropWhile_cons_of_neg (by decide)
  have htakeF : F.takeWhile isDigitC = F := List.takeWhile_eq_self_iff.mpr hdF
  rw [htake2, List.append_nil] at htake
  rw [hdrop2] at hdrop
  simp only [List.cons_append] at htake hdrop
  simp [parseFloatNum, hsplit, htake, hdrop, htakeF]

/-- A run of zero characters has value zero. -/
theorem ofCharsMSB_replicate_zero_nil (k : Nat) : ofCharsMSB (List.replicate k '0') = 0 := by
  have h := ofCharsMSB_replicate_zero k []
  rw [List.append_nil] at h
  rw [h]
  rfl

/-- Core split of a padded digit string `str` at `str.length - d`: the
integer part is nonempty, and the stripped fraction is either empty
(zero remainder) or ends in a nonzero digit, with the arithmetic
relating both parts to the whole string's value. -/
theorem formatUnits_core (str : List Char) (d : Nat)
    (hdig : ∀ c ∈ str, isDigitC c = true) (hlen : d + 1 ≤ str.length) :
    ∃ A : List Char, A ≠ [] ∧ (∀ c ∈ A, isDigitC c = true) ∧
      str.take (str.length - d) = A ∧
      ((stripTrailing0 (str.drop (str.length - d)) = [] ∧
          ofCharsMSB A * 10 ^ d = ofCharsMSB str) ∨
       (∃ F : List Char, ∃ j : Nat, F ≠ [] ∧ (∀ c ∈ F, isDigitC c = true) ∧
         stripTrailing0 (str.drop (str.length - d)) = F ∧
         (∀ c, F.getLast? = some c → c ≠ '0') ∧ F.length + j = d ∧
         ofCharsMSB A * 10 ^ d + ofCharsMSB F * 10 ^ j = ofCharsMSB str)) := by
  refine ⟨str.take (str.length - d), ?_, ?_, rfl, ?_⟩
  · have h1 : (str.take (str.length - d)).length = str.length - d := by
      rw [List.length_take]
      omega
    intro hc
    rw [hc] at h1
    simp at h1
    omega
  · intro c hc
    exact hdig c (List.take_subset _ _ hc)
  · have hBlen : (str.drop (str.length - d)).length = d := by
      rw [List.length_drop]
      omega
    have hsplitv : ofCharsMSB (str.take (str.length - d)) * 10 ^ d
        + ofCharsMSB (str.drop (str.length - d)) = ofCharsMSB str := by
      conv_rhs => rw [← List.take_append_drop (str.length - d) str]
      rw [ofCharsMSB_append, hBlen]
    obtain ⟨k, hdecomp, hklen⟩ := stripTrailing0_decomp (str.drop (str.length - d))
    by_cases hF : stripTrailing0 (str.drop (str.length - d)) = []
    · left
      refine ⟨hF, ?_⟩
      rw [hF, List.nil_append] at hdecomp
      rw [← hsplitv, hdecomp, ofCharsMSB_replicate_zero_nil]
      omega
    · right
      refine ⟨stripTrailing0 (str.drop (str.length - d)), k, hF, ?_, rfl, ?_, ?_, ?_⟩
      · intro c hc
        apply hdig
        apply List.drop_subset _ _
        rw [hdecomp]
        exact List.mem_append_left _ hc
      · exact fun c hc => stripTrailing0_getLast _ c hc
      · omega
      · rw [← hsplitv]
        have hB : ofCharsMSB (str.drop (str.length - d))
            = ofCharsMSB (stripTrailing0 (str.drop (str.length - d))) * 10 ^ k := by
          conv_lhs => rw [hdecomp]
          rw [ofCharsMSB_append, List.length_replicate, ofCharsMSB_replicate_zero_nil]
          omega
        rw [hB]

/-- `formatUnits` on a non-negative value: either a pure digit string
whose value times `10 ^ d` is exactly `r`, or digits, a dot and a
nonempty no-trailing-zero fraction, with
`value(A) * 10 ^ d + value(F) * 10 ^ (d - |F|) = r`. -/
theorem formatUnits_cases (r d : Nat) :
    (∃ A : List Char, A ≠ [] ∧ (∀ c ∈ A, isDigitC c = true) ∧
      formatUnits (r : Int) d = ⟨A⟩ ∧ ofCharsMSB A * 10 ^ d = r) ∨
    (∃ A F : List Char, ∃ j : Nat, A ≠ [] ∧ F ≠ [] ∧
      (∀ c ∈ A, isDigitC c = true) ∧ (∀ c ∈ F, isDigitC c = true) ∧
      formatUnits (r : Int) d = ⟨A ++ '.' :: F⟩ ∧
      (∀ c, F.getLast? = some c → c ≠ '0') ∧
      F.length + j = d ∧
      ofCharsMSB A * 10 ^ d + ofCharsMSB F * 10 ^ j = r) := by
  have hjs : jsBigIntChars (r : Int) = natToChars r := by
    unfold jsBigIntChars
    rw [if_neg (not_lt.mpr (Int.natCast_nonneg r)), Int.toNat_natCast]
  have hstrD : ∀ c ∈ padStartZeros (natToChars r) (d + 1), isDigitC c = true := by
    intro c hc
    unfold padStartZeros at hc
    rcases List.mem_append.mp hc with hc | hc
    · rw [List.eq_of_mem_replicate hc]
      rfl
    · exact natToChars_digits r c hc
  have hlen : d + 1 ≤ (padStartZeros (natToChars r) (d + 1)).length := by
    unfold padStartZeros
    rw [List.length_append, List.length_replicate]
    omega
  have hval : ofCharsMSB (padStartZeros (natToChars r) (d + 1)) = r := by
    unfold padStartZeros
    rw [ofCharsMSB_replicate_zero, ofCharsMSB_natToChars]
  obtain ⟨A, hAne, hAdig, hAeq, hrest⟩ :=
    formatUnits_core (padStartZeros (natToChars r) (d + 1)) d hstrD hlen
  have hfu : formatUnits (r : Int) d
      = ⟨if stripTrailing0 ((padStartZeros (natToChars r) (d + 1)).drop
            ((padStartZeros (natToChars r) (d + 1)).length - d)) = []
         then (if (padStartZeros (natToChars r) (d + 1)).take
                  ((padStartZeros (natToChars r) (d + 1)).length - d) = []
               then ['0']
               else (padStartZeros (natToChars r) (d + 1)).take
                  ((padStartZeros (natToChars r) (d + 1)).length - d))
         else (if (padStartZeros (natToChars r) (d + 1)).take
                  ((padStartZeros (natToChars r) (d + 1)).length - d) = []
               then ['0']
               else (padStartZeros (natToChars r) (d + 1)).take
                  ((padStartZeros (natToChars r) (d + 1)).length - d))
           ++ '.' :: stripTrailing0 ((padStartZeros (natToChars r) (d + 1)).drop
                ((padStartZeros (natToChars r) (d + 1)).length - d))⟩ := by
    simp only [formatUnits, hjs]
  rcases hrest with ⟨hF, hvalA⟩ | ⟨F, j, hFne, hFdig, hFeq, hFlast, hFj, hvalAF⟩
  · left
    refine ⟨A, hAne, hAdig, ?_, by rw [hvalA, hval]⟩
    rw [hfu, hAeq, hF, if_pos rfl, if_neg hAne]
  · right
    refine ⟨A, F, j, hAne, hFne, hAdig, hFdig, ?_, hFlast, hFj, by rw [hvalAF, hval]⟩
    rw [hfu, hAeq, hFeq, if_neg hFne, if_neg hAne]

/-- `formatUnits 0 d = "0"` for every decimal count. -/
theorem formatUnits_zero (d : Nat) : formatUnits ((0 : Nat) : Int) d = "0" := by
  have hjs : jsBigIntChars ((0 : Nat) : Int) = ['0'] := rfl
  have hpad : padStartZeros ['0'] (d + 1) = List.replicate d '0' ++ ['0'] := by
    unfold padStartZeros
    norm_num
  have hlen : (List.replicate d '0' ++ ['0']).length = d + 1 := by
    rw [List.length_append, List.length_replicate]
    rfl
  have htake : (List.replicate d '0' ++ ['0']).take 1 = ['0'] := by
    cases d with
    | zero => rfl
    | succ k => rfl
  have hstrip : stripTrailing0 ((List.replicate d '0' ++ ['0']).drop 1) = [] := by
    apply stripTrailing0_all_zero
    intro c hc
    have hmem : c ∈ List.replicate d '0' ++ ['0'] := List.drop_subset _ _ hc
    rcases List.mem_append.mp hmem with h | h
    · exact List.eq_of_mem_replicate h
    · simpa using h
  have hi : d + 1 - d = 1 := by omega
  simp only [formatUnits, hjs, hpad, hlen, hi, htake, hstrip]
  simp

/-- C3 (amended to non-negative raw integers): for every `r d : ℕ`,
`formatUnits r d` parses back (with JS `parseFloat` semantics) to
exactly `r / 10 ^ d`, contains no exponent marker, has no trailing zero
fraction digit, and is `"0"` for `r = 0`; in particular
`formatUnits 150000000 8 = "1.5"` and `formatUnits 0 8 = "0"`. -/
theorem formatUnits_c3_amended (r d : Nat) :
    (parseFloatNum (formatUnits (r : Int) d)).map DecNum.toQ = some ((r : ℚ) / 10 ^ d) ∧
    'e' ∉ (formatUnits (r : Int) d).data ∧
    'E' ∉ (formatUnits (r : Int) d).data ∧
    ((formatUnits (r : Int) d).data.getLast? ≠ some '0' ∨ '.' ∉ (formatUnits (r : Int) d).data) ∧
    formatUnits ((0 : Nat) : Int) d = "0" ∧
    formatUnits 150000000 8 = "1.5" ∧
    formatUnits 0 8 = "0" := by
  have hpow : ((10 : ℚ) ^ d) ≠ 0 := by positivity
  rcases formatUnits_cases r d with
    ⟨A, hAne, hAdig, heq, hvalA⟩ |
    ⟨A, F, j, hAne, hFne, hAdig, hFdig, heq, hFlast, hFj, hvalAF⟩
  · have hnotmem : ∀ c : Char, isDigitC c = false → c ∉ A := by
      intro c hc hmem
      rw [hAdig c hmem] at hc
      cases hc
    refine ⟨?_, ?_, ?_, ?_, formatUnits_zero d, by decide, by decide⟩
    · rw [heq, parseFloatNum_digits A hAne hAdig]
      refine congrArg some ?_
      show ((ofCharsMSB A : Int) : ℚ) / 10 ^ (0 : Nat) = (r : ℚ) / 10 ^ d
      rw [pow_zero, div_one, eq_div_iff hpow]
      exact_mod_cast hvalA
    · rw [heq]
      exact hnotmem 'e' (by decide)
    · rw [heq]
      exact hnotmem 'E' (by decide)
    · right
      rw [heq]
      exact hnotmem '.' (by decide)
  · have hnotmem : ∀ c : Char, isDigitC c = false → c ≠ '.' → c ∉ A ++ '.' :: F := by
      intro c hc hdot hmem
      rcases List.mem_append.mp hmem with h | h
      · rw [hAdig c h] at hc
        cases hc
      · rcases List.mem_cons.mp h with h | h
        · exact hdot h
        · rw [hFdig c h] at hc
          cases hc
    refine ⟨?_, ?_, ?_, ?_, formatUnits_zero d, by decide, by decide⟩
    · rw [heq, parseFloatNum_digits_frac A F hAne hAdig hFdig]
      have hNat : (ofCharsMSB A * 10 ^ F.length + ofCharsMSB F) * 10 ^ d
          = r * 10 ^ F.length := by
        subst hFj
        rw [← hvalAF]
        ring
      refine congrArg some ?_
      show ((ofCharsMSB A * 10 ^ F.length + ofCharsMSB F : Int) : ℚ) / 10 ^ F.length
          = (r : ℚ) / 10 ^ d
      rw [div_eq_div_iff (by positivity) hpow]
      exact_mod_cast hNat
    · rw [heq]
      exact hnotmem 'e' (by decide) (by decide)
    · rw [heq]
      exact hnotmem 'E' (by decide) (by decide)
    · left
      rw [heq]
      show (A ++ '.' :: F).getLast? ≠ some '0'
      obtain ⟨f, fs, rfl⟩ := List.exists_cons_of_ne_nil hFne
      rw [List.getLast?_append]
      have hsome : ('.' :: f :: fs).getLast? = (f :: fs).getLast? := List.getLast?_cons_cons
      obtain ⟨c, hc⟩ : ∃ c, (f :: fs).getLast? = some c := by
        cases hlast : (f :: fs).getLast? with
        | none => exact absurd (List.getLast?_eq_none_iff.mp hlast) (List.cons_ne_nil f fs)
        | some c => exact ⟨c, rfl⟩
      rw [hsome, hc]
      have hor : (some c).or A.getLast? = some c := rfl
      rw [hor]
      intro hcon
      injection hcon with hcon
      exact hFlast c hc hcon

/-- C3 (counterexample to the claim as stated, at a negative raw
integer): `formatUnits (-1) 2` is the malformed string `"0.-1"`, which
parses back to `0`, not to `-1 / 10 ^ 2` — JS `padStart` pads zeros in
front of the minus sign. -/
theorem formatUnits_c3_counterexample :
    formatUnits (-1) 2 = "0.-1" ∧
    (parseFloatNum (formatUnits (-1) 2)).map DecNum.toQ = some 0 ∧
    ((-1 : ℚ) / 10 ^ 2) ≠ 0 := by
  refine ⟨by decide, ?_, by norm_num⟩
  have h : parseFloatNum (formatUnits (-1) 2) = some ⟨0, 0⟩ := by decide
  rw [h]
  simp [DecNum.toQ]

/-- Witness for the amended C3 at `r = 150000000`, `d = 8`. -/
theorem formatUnits_c3_amended_witness :
    (parseFloatNum (formatUnits ((150000000 : Nat) : Int) 8)).map DecNum.toQ
      = some (((150000000 : Nat) : ℚ) / 10 ^ 8) ∧
    formatUnits ((0 : Nat) : Int) 8 = "0" ∧
    formatUnits 150000000 8 = "1.5" :=
  ⟨(formatUnits_c3_amended 150000000 8).1,
   (formatUnits_c3_amended 150000000 8).2.2.2.2.1,
   (formatUnits_c3_amended 150000000 8).2.2.2.2.2.1⟩
